import Mathlib

/-!
Verification development for the zokugo repository (a browser-based
Japanese-learning app).  The definitions below are a shallow embedding of the
repository's TypeScript source:

* `src/lib/gemini.ts` (`generateResponse`): request construction for the
  generative-language provider;
* `src/lib/backend.ts`: the data-access layer against the hosted relational
  store, modelled as explicit state passing over a `DB` value, with the
  store's single-row/maybe-single/delete semantics made explicit and a
  `fail` oracle standing for "the underlying store call threw";
* `src/app/(dashboard)/scenario/page.tsx`: flashcard study-mode navigation;
* `src/app/(dashboard)/storyboard/page.tsx`: the delimiter-based parser of
  the model's story response (split on "---", TITLE regex, vocabulary lines).

JavaScript strings are modelled through `List Char`; the JS string methods
used by the source (`split` with a string separator, `includes`, `trim`,
`replace` of the anchored bullet pattern, and the two regexes
`/TITLE:\s*(.+)/` and `/(.+?)\s*\((.+?)\)/`) are implemented below by
structural recursion so that every definition evaluates inside the kernel.
-/

namespace Zokugo

/-! ## JS string primitives over `List Char` -/

/-- Whitespace class used by JS `trim` and by `\s` in the regexes of the
source (ASCII whitespace plus the common Unicode members; the source's
inputs in the claims are ASCII). -/
def isWs (c : Char) : Bool :=
  c == ' ' || c == '\t' || c == '\n' || c == '\r' || c == '\x0b' ||
  c == '\x0c' || c == '\u00a0' || c == '\u2028' || c == '\u2029' ||
  c == '\u3000' || c == '\ufeff'

/-- Line-terminator class: the characters NOT matched by `.` in a JS regex
without the dot-all flag. -/
def isTerm (c : Char) : Bool :=
  c == '\n' || c == '\r' || c == '\u2028' || c == '\u2029'

/-- Worker for `splitOnL`: scans the list one character at a time; `skip`
counts characters of an already-matched separator still to be consumed,
`acc` is the current chunk reversed. -/
def splitGo (sep : List Char) : List Char → Nat → List Char → List (List Char)
  | [], _, acc => [acc.reverse]
  | _ :: rest, k + 1, acc => splitGo sep rest k acc
  | c :: rest, 0, acc =>
    if sep.isPrefixOf (c :: rest) then
      acc.reverse :: splitGo sep rest (sep.length - 1) []
    else
      splitGo sep rest 0 (c :: acc)

/-- Model of JS `String.prototype.split` with a non-empty string separator:
splits on every occurrence of `sep`, scanning left to right. -/
def splitOnL (sep l : List Char) : List (List Char) := splitGo sep l 0 []

/-- Model of JS `String.prototype.includes`: `sep` occurs as a contiguous
subsequence of `l`. -/
def containsSeq (sep : List Char) : List Char → Bool
  | [] => sep.isPrefixOf []
  | c :: rest => sep.isPrefixOf (c :: rest) || containsSeq sep rest

/-- Model of JS `String.prototype.trim`: strip whitespace at both ends. -/
def trimL (l : List Char) : List Char :=
  ((l.dropWhile isWs).reverse.dropWhile isWs).reverse

/-- String-level wrapper for `splitOnL`. -/
def splitOnS (sep s : String) : List String :=
  (splitOnL sep.toList s.toList).map String.mk

/-- String-level wrapper for `containsSeq`. -/
def containsS (sep s : String) : Bool := containsSeq sep.toList s.toList

/-- String-level wrapper for `trimL`. -/
def trimS (s : String) : String := String.mk (trimL s.toList)

/-! ## Shared message type (`src/types/index.ts`) -/

/-- Message role: `'user' | 'assistant'`. -/
inductive Role where
  | user
  | assistant
deriving DecidableEq

/-- A chat message (`interface Message` in `src/types/index.ts`). -/
structure Message where
  role : Role
  content : String
deriving DecidableEq

/-! ## `src/lib/gemini.ts` — `generateResponse`

The network call itself (`chat.sendMessage`) is external; the embedding
captures the request the function constructs: the mapped chat history handed
to `model.startChat` and the prompt string handed to `sendMessage`. -/

/-- Role in the provider's request format: `'user' | 'model'`. -/
inductive GeminiRole where
  | user
  | model
deriving DecidableEq

/-- One turn of the request history (`{role, parts:[{text}]}`). -/
structure HistoryTurn where
  role : GeminiRole
  text : String
deriving DecidableEq

/-- The request assembled by `generateResponse`: history passed to
`startChat` plus the prompt passed to `sendMessage`. -/
structure ChatRequest where
  history : List HistoryTurn
  prompt : String
deriving DecidableEq

/-- Line 9-12 of gemini.ts: `messages.map(msg => ({role: msg.role ===
'assistant' ? 'model' : 'user', parts: [{text: msg.content}]}))`. -/
def mapTurn (m : Message) : HistoryTurn :=
  { role := if m.role = Role.assistant then GeminiRole.model else GeminiRole.user
    text := m.content }

/-- Lines 14-16 of gemini.ts: `if (chatHistory.length != 0) chatHistory[0].role = 'user'`. -/
def coerceFirstToUser : List HistoryTurn → List HistoryTurn
  | [] => []
  | t :: ts => { role := GeminiRole.user, text := t.text } :: ts

/-- Lines 6-33 of gemini.ts.  The history sent is `chatHistory.slice(0,-1)`;
the prompt is `systemPrompt ? systemPrompt + "\n\nUser: " + last.content :
last.content` where `last = messages[messages.length - 1]`.  On an empty
message list the JS dereferences `undefined.content` and throws, which the
embedding renders as `none`; note that the JS truthiness test on
`systemPrompt` treats the empty string like `undefined`. -/
def generateResponse (messages : List Message) (systemPrompt : Option String) :
    Option ChatRequest :=
  let chatHistory := coerceFirstToUser (messages.map mapTurn)
  match messages.getLast? with
  | none => none
  | some last =>
    some
      { history := chatHistory.dropLast
        prompt :=
          match systemPrompt with
          | some sp =>
            if sp = "" then last.content
            else sp ++ "\n\nUser: " ++ last.content
          | none => last.content }

/-! ## `src/app/(dashboard)/scenario/page.tsx` — flashcard study mode -/

/-- The study-mode slice of the flashcards page state:
`currentCardIndex` and `showAnswer`. -/
structure StudyState where
  currentCardIndex : Nat
  showAnswer : Bool
deriving DecidableEq

/-- Lines 430-434: `startStudy` sets index 0, hides the answer. -/
def startStudy : StudyState :=
  { currentCardIndex := 0, showAnswer := false }

/-- Lines 436-439: `setShowAnswer(false); setCurrentCardIndex(prev => (prev + 1) % cards.length)`. -/
def nextCard (numCards : Nat) (s : StudyState) : StudyState :=
  { currentCardIndex := (s.currentCardIndex + 1) % numCards
    showAnswer := false }

/-- Lines 441-444: `setShowAnswer(false); setCurrentCardIndex(prev => (prev - 1 + cards.length) % cards.length)`.
JS arithmetic is modelled on `ℤ` (the dividend `prev - 1 + N` is
non-negative, where JS `%` agrees with `Int.emod`). -/
def prevCard (numCards : Nat) (s : StudyState) : StudyState :=
  { currentCardIndex := (((s.currentCardIndex : Int) - 1 + numCards) % (numCards : Int)).toNat
    showAnswer := false }

/-! ## `src/lib/backend.ts` — data-access layer

The hosted store is modelled as an explicit `DB` value; every data-access
function becomes a total Lean function over it.  Row ids generated by the
store are modelled by a counter `DB.nextId`.  The store client's observable
behaviours are made explicit:

* `.single()` succeeds exactly when the filtered result has exactly one row
  and otherwise yields an error (modelled by the string `"PGRST116"`);
* `.maybeSingle()` yields `data = null, error = null` when no row matches;
* `.delete()` matching zero rows is not an error;
* a thrown exception from the underlying store call is modelled by the
  `fail : Option String` oracle, checked at the entry of each function's
  `try` block.
-/

/-- A `profiles` row. -/
structure Profile where
  id : String
  name : String
  bio : String
  avatar_url : String
  created_at : String
  updated_at : String
deriving DecidableEq

/-- A `conversations` row. -/
structure Conversation where
  id : Nat
  user_id : String
  messages : List Message
  type : String
  created_at : String
  updated_at : String
deriving DecidableEq

/-- A `flashcard_decks` row. -/
structure Deck where
  id : Nat
  user_id : String
  name : String
  description : String
  created_at : String
  updated_at : String
deriving DecidableEq

/-- A `flashcards` row. -/
structure Card where
  id : Nat
  deck_id : Nat
  front : String
  back : String
  created_at : String
  updated_at : String
deriving DecidableEq

/-- A vocabulary item as persisted in a `stories` row. -/
structure VocabEntry where
  word : String
  reading : String
  definition : String
deriving DecidableEq

/-- A `stories` row. -/
structure StoryRow where
  id : Nat
  user_id : String
  level : String
  title : String
  content : String
  vocabulary : List VocabEntry
  created_at : String
deriving DecidableEq

/-- The state of the hosted store. -/
structure DB where
  profiles : List Profile
  conversations : List Conversation
  decks : List Deck
  cards : List Card
  stories : List StoryRow
  nextId : Nat
deriving DecidableEq

/-- The uniform result shape `{ data, error }` returned by every
data-access function of backend.ts. -/
structure QueryResult (α : Type) where
  data : Option α
  error : Option String
deriving DecidableEq

/-- The result shape `{ error }` of the delete operations. -/
structure DeleteResult where
  error : Option String
deriving DecidableEq

/-- Error produced by `.single()` when the filter does not match exactly
one row. -/
def noRowsErr : String := "PGRST116"

/-- The `try`/`catch` wrapper common to every data-access function:
on `fail = some e` the underlying store call threw `e` and the catch
converts it into the error field; otherwise the body either succeeds with a
value and a new store state, or throws an error caught the same way. -/
def runQ (fail : Option String) (db : DB) (body : Except String (α × DB)) :
    QueryResult α × DB :=
  match fail with
  | some e => ({ data := none, error := some e }, db)
  | none =>
    match body with
    | Except.ok (a, db') => ({ data := some a, error := none }, db')
    | Except.error e => ({ data := none, error := some e }, db)

/-- Same wrapper for the delete operations, whose results carry no data. -/
def runD (fail : Option String) (db : DB) (body : Except String DB) :
    DeleteResult × DB :=
  match fail with
  | some e => ({ error := some e }, db)
  | none =>
    match body with
    | Except.ok db' => ({ error := none }, db')
    | Except.error e => ({ error := some e }, db)

/-- Insertion step of an insertion sort with Boolean order `le`. -/
def insertBy (le : α → α → Bool) (a : α) : List α → List α
  | [] => [a]
  | x :: xs => if le a x then a :: x :: xs else x :: insertBy le a xs

/-- Insertion sort with Boolean order `le`, modelling the store's `.order`
clause (all ordering keys in the source are ISO-8601 timestamp strings, for
which lexicographic order is chronological order). -/
def sortBy (le : α → α → Bool) : List α → List α
  | [] => []
  | x :: xs => insertBy le x (sortBy le xs)

/-- Lexicographic order on character lists (used to order timestamp strings). -/
def leChars : List Char → List Char → Bool
  | [], _ => true
  | _ :: _, [] => false
  | a :: as, b :: bs =>
    decide (a.val < b.val) || (a.val == b.val && leChars as bs)

/-- Descending-timestamp order for two timestamp strings. -/
def descStamp (a b : String) : Bool := leChars b.toList a.toList

/-- JS `email.split('@')[0]`, the default display name in `createProfile`. -/
def emailLocal (email : String) : String := (splitOnS "@" email).getD 0 ""

/-- Lines 15-35: `createProfile`.  The store rejects a duplicate primary
key; the default name comes from the email when `name` is falsy. -/
def createProfile (fail : Option String) (db : DB) (userId email : String)
    (name : Option String) (now : String) : QueryResult Profile × DB :=
  runQ fail db <|
    if db.profiles.any (fun p => p.id == userId) then
      Except.error "duplicate key value violates unique constraint"
    else
      let row : Profile :=
        { id := userId
          name := match name with
                  | some n => if n = "" then emailLocal email else n
                  | none => emailLocal email
          bio := ""
          avatar_url := ""
          created_at := now
          updated_at := now }
      Except.ok (row, { db with profiles := db.profiles ++ [row] })

/-- Lines 41-57: `getProfile` uses `.maybeSingle()`, so an absent row gives
`data = null, error = null`; an error with code PGRST116 is exempted from
the throw, so the several-rows case also comes back error-free with null
data. -/
def getProfile (fail : Option String) (db : DB) (userId : String) :
    QueryResult Profile × DB :=
  match fail with
  | some e => ({ data := none, error := some e }, db)
  | none =>
    match db.profiles.filter (fun p => p.id == userId) with
    | [p] => ({ data := some p, error := none }, db)
    | _ => ({ data := none, error := none }, db)

/-- The optional fields of `editProfile`'s `updates` argument (an absent
field leaves the column unchanged, since the JSON serialization of the
update drops undefined properties). -/
structure ProfileUpdates where
  name : Option String := none
  bio : Option String := none
  avatar_url : Option String := none
deriving DecidableEq

/-- Lines 64-89: `editProfile` (`update ... .eq('id', userId).select().single()`). -/
def editProfile (fail : Option String) (db : DB) (userId : String)
    (updates : ProfileUpdates) (now : String) : QueryResult Profile × DB :=
  runQ fail db <|
    match db.profiles.filter (fun p => p.id == userId) with
    | [p] =>
      let p' : Profile :=
        { p with
          name := updates.name.getD p.name
          bio := updates.bio.getD p.bio
          avatar_url := updates.avatar_url.getD p.avatar_url
          updated_at := now }
      Except.ok (p', { db with
        profiles := db.profiles.map fun x =>
          if x.id == userId then
            { x with
              name := updates.name.getD x.name
              bio := updates.bio.getD x.bio
              avatar_url := updates.avatar_url.getD x.avatar_url
              updated_at := now }
          else x })
    | _ => Except.error noRowsErr

/-- Lines 101-125: `insertConversation` inserts one row and returns it with
its generated id. -/
def insertConversation (fail : Option String) (db : DB) (userId : String)
    (messages : List Message) (ty : String) (now : String) :
    QueryResult Conversation × DB :=
  runQ fail db <|
    let row : Conversation :=
      { id := db.nextId, user_id := userId, messages := messages
        type := ty, created_at := now, updated_at := now }
    Except.ok (row, { db with
      conversations := db.conversations ++ [row]
      nextId := db.nextId + 1 })

/-- Lines 135-166: `upsertConversation` updates in place when a
conversation id is given (filtering on both id and owner, `.single()`),
and otherwise delegates to `insertConversation`. -/
def upsertConversation (fail : Option String) (db : DB) (userId : String)
    (conversationId : Option Nat) (messages : List Message) (ty : String)
    (now : String) : QueryResult Conversation × DB :=
  match conversationId with
  | some cid =>
    runQ fail db <|
      match db.conversations.filter
          (fun c => c.id == cid && c.user_id == userId) with
      | [c] =>
        Except.ok ({ c with messages := messages, updated_at := now },
          { db with
            conversations := db.conversations.map fun x =>
              if x.id == cid && x.user_id == userId then
                { x with messages := messages, updated_at := now }
              else x })
      | _ => Except.error noRowsErr
  | none => insertConversation fail db userId messages ty now

/-- Lines 173-188: `getConversation` (`.eq('id').eq('user_id').single()`). -/
def getConversation (fail : Option String) (db : DB) (userId : String)
    (conversationId : Nat) : QueryResult Conversation × DB :=
  runQ fail db <|
    match db.conversations.filter
        (fun c => c.id == conversationId && c.user_id == userId) with
    | [c] => Except.ok (c, db)
    | _ => Except.error noRowsErr

/-- Lines 196-224: `getConversations`; ordering is by `created_at`
descending; the optional type filter and limit are applied only when
truthy (so a limit of `0` and an empty type string are ignored, as in JS). -/
def getConversations (fail : Option String) (db : DB) (userId : String)
    (limit : Option Nat) (ty : Option String) :
    QueryResult (List Conversation) × DB :=
  runQ fail db <|
    let base := db.conversations.filter (fun c => c.user_id == userId)
    let typed :=
      match ty with
      | some t => if t = "" then base else base.filter (fun c => c.type == t)
      | none => base
    let ordered := sortBy (fun a b => descStamp a.created_at b.created_at) typed
    let limited :=
      match limit with
      | some l => if l = 0 then ordered else ordered.take l
      | none => ordered
    Except.ok (limited, db)

/-- Lines 231-245: `deleteConversation`; deleting zero rows is a success. -/
def deleteConversation (fail : Option String) (db : DB) (userId : String)
    (conversationId : Nat) : DeleteResult × DB :=
  runD fail db <|
    Except.ok { db with
      conversations := db.conversations.filter fun c =>
        !(c.id == conversationId && c.user_id == userId) }

/-- The statistics object of `getConversationStats`. -/
structure ConversationStats where
  totalConversations : Nat
  totalMessages : Nat
  conversationsByType : List (String × Nat)
  lastActivity : Option String
deriving DecidableEq

/-- One step of the `conversationsByType` accumulation (an association list
keyed in first-appearance order, modelling the JS object). -/
def bumpType (t : String) : List (String × Nat) → List (String × Nat)
  | [] => [(t, 1)]
  | (k, n) :: rest =>
    if k == t then (k, n + 1) :: rest else (k, n) :: bumpType t rest

/-- Lines 255-306: `getConversationStats`. `totalMessages` counts only the
user-role messages; `lastActivity` is the most recent `created_at`. -/
def getConversationStats (fail : Option String) (db : DB) (userId : String) :
    QueryResult ConversationStats × DB :=
  runQ fail db <|
    let convs := db.conversations.filter (fun c => c.user_id == userId)
    if convs.isEmpty then
      Except.ok ({ totalConversations := 0, totalMessages := 0
                   conversationsByType := [], lastActivity := none }, db)
    else
      Except.ok
        ({ totalConversations := convs.length
           totalMessages := convs.foldl
             (fun s c =>
               s + (c.messages.filter (fun m => m.role == Role.user)).length) 0
           conversationsByType := convs.foldl (fun acc c => bumpType c.type acc) []
           lastActivity :=
             ((sortBy (fun a b => descStamp a.created_at b.created_at)
               convs).head?.map (fun c => c.created_at)) }, db)

/-- Lines 318-342: `createDeck`. -/
def createDeck (fail : Option String) (db : DB) (userId name : String)
    (description : Option String) (now : String) : QueryResult Deck × DB :=
  runQ fail db <|
    let row : Deck :=
      { id := db.nextId, user_id := userId, name := name
        description := description.getD ""
        created_at := now, updated_at := now }
    Except.ok (row, { db with decks := db.decks ++ [row], nextId := db.nextId + 1 })

/-- Lines 348-362: `getDecks` selects the user's decks with a card count
per deck, ordered by `updated_at` descending. -/
def getDecks (fail : Option String) (db : DB) (userId : String) :
    QueryResult (List (Deck × Nat)) × DB :=
  runQ fail db <|
    let ds := sortBy (fun a b => descStamp a.updated_at b.updated_at)
      (db.decks.filter (fun d => d.user_id == userId))
    Except.ok
      (ds.map (fun d => (d, (db.cards.filter (fun c => c.deck_id == d.id)).length)),
       db)

/-- Lines 369-384: `getDeck` returns one owned deck with all its cards. -/
def getDeck (fail : Option String) (db : DB) (userId : String) (deckId : Nat) :
    QueryResult (Deck × List Card) × DB :=
  runQ fail db <|
    match db.decks.filter (fun d => d.id == deckId && d.user_id == userId) with
    | [d] => Except.ok ((d, db.cards.filter (fun c => c.deck_id == d.id)), db)
    | _ => Except.error noRowsErr

/-- The optional fields of `updateDeck`'s `updates` argument. -/
structure DeckUpdates where
  name : Option String := none
  description : Option String := none
deriving DecidableEq

/-- Lines 392-418: `updateDeck` (`update ... .eq('id').eq('user_id').select().single()`). -/
def updateDeck (fail : Option String) (db : DB) (userId : String)
    (deckId : Nat) (updates : DeckUpdates) (now : String) :
    QueryResult Deck × DB :=
  runQ fail db <|
    match db.decks.filter (fun d => d.id == deckId && d.user_id == userId) with
    | [d] =>
      Except.ok
        ({ d with
           name := updates.name.getD d.name
           description := updates.description.getD d.description
           updated_at := now },
         { db with
           decks := db.decks.map fun x =>
             if x.id == deckId && x.user_id == userId then
               { x with
                 name := updates.name.getD x.name
                 description := updates.description.getD x.description
                 updated_at := now }
             else x })
    | _ => Except.error noRowsErr

/-- Lines 425-439: `deleteDeck` filters on id and owner with no
`.single()`, so deleting zero rows is a success; its cards go with it
through the store's cascade. -/
def deleteDeck (fail : Option String) (db : DB) (userId : String)
    (deckId : Nat) : DeleteResult × DB :=
  runD fail db <|
    let doomed := db.decks.filter (fun d => d.id == deckId && d.user_id == userId)
    Except.ok { db with
      decks := db.decks.filter fun d => !(d.id == deckId && d.user_id == userId)
      cards := db.cards.filter fun c => !(doomed.any (fun d => d.id == c.deck_id)) }

/-- Lines 452-496: `createCard` first verifies deck ownership with a
`select ... .eq('id').eq('user_id').single()`; a missing result throws
`'Deck not found or unauthorized'` before any write; on success it inserts
the card and touches the deck's `updated_at` (that last update filters on
deck id only). -/
def createCard (fail : Option String) (db : DB) (userId : String)
    (deckId : Nat) (front back : String) (now : String) :
    QueryResult Card × DB :=
  runQ fail db <|
    match db.decks.filter (fun d => d.id == deckId && d.user_id == userId) with
    | [_] =>
      let row : Card :=
        { id := db.nextId, deck_id := deckId, front := front, back := back
          created_at := now, updated_at := now }
      Except.ok (row, { db with
        cards := db.cards ++ [row]
        decks := db.decks.map fun d =>
          if d.id == deckId then { d with updated_at := now } else d
        nextId := db.nextId + 1 })
    | _ => Except.error "Deck not found or unauthorized"

/-- Lines 503-529: `getCards`, with the same ownership guard as
`createCard`, then the deck's cards ordered by `created_at` ascending. -/
def getCards (fail : Option String) (db : DB) (userId : String)
    (deckId : Nat) : QueryResult (List Card) × DB :=
  runQ fail db <|
    match db.decks.filter (fun d => d.id == deckId && d.user_id == userId) with
    | [_] =>
      Except.ok
        (sortBy (fun a b => leChars a.created_at.toList b.created_at.toList)
          (db.cards.filter (fun c => c.deck_id == deckId)), db)
    | _ => Except.error "Deck not found or unauthorized"

/-- The optional fields of `updateCard`'s `updates` argument. -/
structure CardUpdates where
  front : Option String := none
  back : Option String := none
deriving DecidableEq

/-- Lines 537-580: `updateCard` loads the card joined with its deck's
owner (`select('deck_id, flashcard_decks(user_id)').eq('id').single()`),
throws `'Card not found or unauthorized'` unless the joined owner equals
the caller, then updates the card and touches the deck's `updated_at`. -/
def updateCard (fail : Option String) (db : DB) (userId : String)
    (cardId : Nat) (updates : CardUpdates) (now : String) :
    QueryResult Card × DB :=
  runQ fail db <|
    match db.cards.filter (fun c => c.id == cardId) with
    | [c] =>
      match db.decks.find? (fun d => d.id == c.deck_id) with
      | some d =>
        if d.user_id == userId then
          Except.ok
            ({ c with
               front := updates.front.getD c.front
               back := updates.back.getD c.back
               updated_at := now },
             { db with
               cards := db.cards.map fun x =>
                 if x.id == cardId then
                   { x with
                     front := updates.front.getD x.front
                     back := updates.back.getD x.back
                     updated_at := now }
                 else x
               decks := db.decks.map fun dd =>
                 if dd.id == c.deck_id then { dd with updated_at := now } else dd })
        else Except.error "Card not found or unauthorized"
      | none => Except.error "Card not found or unauthorized"
    | _ => Except.error "Card not found or unauthorized"

/-- Lines 587-618: `deleteCard`, with the same joined ownership guard as
`updateCard`. -/
def deleteCard (fail : Option String) (db : DB) (userId : String)
    (cardId : Nat) (now : String) : DeleteResult × DB :=
  runD fail db <|
    match db.cards.filter (fun c => c.id == cardId) with
    | [c] =>
      match db.decks.find? (fun d => d.id == c.deck_id) with
      | some d =>
        if d.user_id == userId then
          Except.ok { db with
            cards := db.cards.filter fun x => !(x.id == cardId)
            decks := db.decks.map fun dd =>
              if dd.id == c.deck_id then { dd with updated_at := now } else dd }
        else Except.error "Card not found or unauthorized"
      | none => Except.error "Card not found or unauthorized"
    | _ => Except.error "Card not found or unauthorized"

/-- Lines 632-659: `createStory`. -/
def createStory (fail : Option String) (db : DB) (userId level title content : String)
    (vocabulary : List VocabEntry) (now : String) : QueryResult StoryRow × DB :=
  runQ fail db <|
    let row : StoryRow :=
      { id := db.nextId, user_id := userId, level := level, title := title
        content := content, vocabulary := vocabulary, created_at := now }
    Except.ok (row, { db with stories := db.stories ++ [row], nextId := db.nextId + 1 })

/-- Lines 666-686: `getStories`, ordered by `created_at` descending with an
optional (truthy) level filter. -/
def getStories (fail : Option String) (db : DB) (userId : String)
    (level : Option String) : QueryResult (List StoryRow) × DB :=
  runQ fail db <|
    let base := db.stories.filter (fun s => s.user_id == userId)
    let leveled :=
      match level with
      | some l => if l = "" then base else base.filter (fun s => s.level == l)
      | none => base
    Except.ok (sortBy (fun a b => descStamp a.created_at b.created_at) leveled, db)

/-- Lines 693-708: `getStory` (`.eq('id').eq('user_id').single()`). -/
def getStory (fail : Option String) (db : DB) (userId : String)
    (storyId : Nat) : QueryResult StoryRow × DB :=
  runQ fail db <|
    match db.stories.filter (fun s => s.id == storyId && s.user_id == userId) with
    | [s] => Except.ok (s, db)
    | _ => Except.error noRowsErr

/-- Lines 715-729: `deleteStory`; deleting zero rows is a success. -/
def deleteStory (fail : Option String) (db : DB) (userId : String)
    (storyId : Nat) : DeleteResult × DB :=
  runD fail db <|
    Except.ok { db with
      stories := db.stories.filter fun s =>
        !(s.id == storyId && s.user_id == userId) }

/-- Lines 788-794: extraction of the JSON payload from the model's text
response: prefer the text after the first fence marker of kind
three-backticks-json, else after the first generic three-backtick fence, in
both cases cut at the next generic fence and trimmed; otherwise the whole
text. -/
def extractJsonText (text : String) : String :=
  if containsS "```json" text then
    trimS ((splitOnS "```" ((splitOnS "```json" text).getD 1 "")).getD 0 "")
  else if containsS "```" text then
    trimS ((splitOnS "```" ((splitOnS "```" text).getD 1 "")).getD 0 "")
  else text

/-- Lines 739-803: `generateConversationReview`.  The request construction
and the model call are external; the embedding takes the model's raw text
response together with a `parse` function standing for `JSON.parse` (which
either yields a value or throws) and a `fail` oracle standing for a
network/model failure, and performs the extraction and the `try`/`catch`
conversion to the uniform result shape. -/
def generateConversationReview (parse : String → Except String α)
    (fail : Option String) (text : String) : QueryResult α :=
  match fail with
  | some e => { data := none, error := some e }
  | none =>
    match parse (extractJsonText text) with
    | Except.ok v => { data := some v, error := none }
    | Except.error e => { data := none, error := some e }

/-- Lines 811-824: `ensureProfileExists` reads the profile (ignoring the
error field of that read) and creates one exactly when the read yielded no
data; the two oracle arguments are the store outcomes of the two underlying
calls. -/
def ensureProfileExists (fail1 fail2 : Option String) (db : DB)
    (userId email : String) (now : String) : QueryResult Profile × DB :=
  let g := getProfile fail1 db userId
  match g.1.data with
  | none => createProfile fail2 db userId email none now
  | some p => ({ data := some p, error := none }, db)

/-! ## Storyboard page — parsing of the generated story
(`src/app/(dashboard)/storyboard/page.tsx`, `generateStory`, response
handling: split on `"---"`, the `/TITLE:\s*(.+)/` match, and the
per-line vocabulary parsing with `/(.+?)\s*\((.+?)\)/`). -/

/-- A vocabulary item of the storyboard page (the page-level `VocabItem`,
whose `selected` flag is set to `true` on every parsed line). -/
structure VocabItem where
  word : String
  reading : String
  definition : String
  selected : Bool
deriving DecidableEq

/-- The parsed story the page builds from the model's response. -/
structure GeneratedStory where
  title : String
  content : String
  vocabulary : List VocabItem
deriving DecidableEq

/-- The `\s*(.+)` part of `/TITLE:\s*(.+)/` evaluated right after an
occurrence of `TITLE:`: skip whitespace greedily and capture the longest
run of non-line-terminator characters; when everything to the end is
whitespace, the greedy `\s*` backtracks to the last non-terminator
whitespace character, whose singleton run is then the capture; when the
rest is line terminators only, this occurrence fails. -/
def titleTail (t : List Char) : Option (List Char) :=
  match t.dropWhile isWs with
  | c :: rest => some ((c :: rest).takeWhile (fun ch => !(isTerm ch)))
  | [] =>
    match t.reverse.dropWhile isTerm with
    | c :: _ => some [c]
    | [] => none

/-- First match of `/TITLE:\s*(.+)/` (capture group 1): try each
occurrence of the literal `TITLE:` left to right. -/
def matchTitle : List Char → Option (List Char)
  | [] => none
  | c :: rest =>
    if ("TITLE:".toList).isPrefixOf (c :: rest) then
      match titleTail ((c :: rest).drop 6) with
      | some g => some g
      | none => matchTitle rest
    else matchTitle rest

/-- The lazy `(.+?)\)` tail inside `/(.+?)\s*\((.+?)\)/` evaluated after
the opening parenthesis: the capture runs to the first closing parenthesis
at index at least one, with every character before it matchable by `.`. -/
def scanTo : List Char → Option (List Char)
  | [] => none
  | c :: cs =>
    if c == ')' then some []
    else if isTerm c then none
    else (scanTo cs).map (fun g => c :: g)

/-- Group 2 of the reading regex: at least one `.`-matchable character,
then the scan to the closing parenthesis. -/
def closeScan : List Char → Option (List Char)
  | [] => none
  | d :: ds => if isTerm d then none else (scanTo ds).map (fun g => d :: g)

/-- The `\s*\((.+?)\)` part of the reading regex at the current position:
skip whitespace, require an opening parenthesis, then `closeScan`. -/
def closeParen (l : List Char) : Option (List Char) :=
  match l.dropWhile isWs with
  | '(' :: tail => closeScan tail
  | _ => none

/-- Lazy growth of group 1 of `/(.+?)\s*\((.+?)\)/`: consume one
`.`-matchable character at a time and attempt `closeParen` after each. -/
def growG1 (g1rev : List Char) : List Char → Option (List Char × List Char)
  | [] => none
  | c :: rest =>
    if isTerm c then none
    else
      match closeParen rest with
      | some g2 => some ((c :: g1rev).reverse, g2)
      | none => growG1 (c :: g1rev) rest

/-- First match of `/(.+?)\s*\((.+?)\)/` (capture groups 1 and 2): try
each start position left to right. -/
def readingMatch : List Char → Option (List Char × List Char)
  | [] => none
  | c :: rest =>
    match growG1 [] (c :: rest) with
    | some r => some r
    | none => readingMatch rest

/-- JS `line.replace(/^[-•]\s*/, '')`: remove one leading bullet character
together with the whitespace following it. -/
def stripBullet : List Char → List Char
  | [] => []
  | c :: rest => if c == '-' || c == '•' then rest.dropWhile isWs else c :: rest

/-- One iteration of the vocabulary `forEach` (lines 144-165 of the page):
clean the line, split on `:`, trim all parts, keep the first two, and emit
an item when both are non-empty, extracting a parenthesised reading when
the reading regex matches. -/
def parseVocabLine (line : List Char) : Option VocabItem :=
  let cleanLine := trimL (stripBullet line)
  let parts := (splitOnL [':'] cleanLine).map trimL
  let wordPart := parts.getD 0 []
  let definition := parts.getD 1 []
  if wordPart.isEmpty || definition.isEmpty then none
  else
    match readingMatch wordPart with
    | some (g1, g2) =>
      some { word := String.mk (trimL g1), reading := String.mk (trimL g2)
             definition := String.mk definition, selected := true }
    | none =>
      some { word := String.mk wordPart, reading := ""
             definition := String.mk definition, selected := true }

/-- The vocabulary section: `sections[2]?.trim() || ''`. -/
def vocabSectionOf (text : String) : List Char :=
  trimL ((splitOnL "---".toList text.toList).getD 2 [])

/-- Lines 131-170 of the storyboard page: split the response on `"---"`;
title from the `TITLE:` match of the first section, defaulting to
`level ++ " Reading"`; content from the trimmed second section, defaulting
to empty; vocabulary from the lines of the trimmed third section that
contain `:`. -/
def parseStoryResponse (text level : String) : GeneratedStory :=
  let sections := splitOnL "---".toList text.toList
  let title :=
    match matchTitle (sections.getD 0 []) with
    | some g => String.mk (trimL g)
    | none => level ++ " Reading"
  let content := String.mk (trimL (sections.getD 1 []))
  let vocabSection := vocabSectionOf text
  let vocabulary :=
    if vocabSection.isEmpty then ([] : List VocabItem)
    else
      ((splitOnL ['\n'] vocabSection).filter
        (fun l => containsSeq [':'] l)).filterMap parseVocabLine
  { title := title, content := content, vocabulary := vocabulary }

/-! ## Claim statements -/

/-- The transcript-to-request mapping property of `generateResponse`: some
request is produced; its history has one turn per message except the last;
turn `i` carries message `i`'s content, with role `model` for assistant
turns and `user` for user turns except that turn 0 is coerced to `user`;
and the prompt is the last message's content, prefixed by the system
instruction exactly when a non-empty one is supplied. -/
def TranscriptRequestSpec (messages : List Message) (systemPrompt : Option String) : Prop :=
  ∃ req : ChatRequest, generateResponse messages systemPrompt = some req ∧
    req.history.length = messages.length - 1 ∧
    (∀ i : Nat, ∀ hh : i < req.history.length, ∀ hm : i < messages.length,
      (req.history.get ⟨i, hh⟩).text = (messages.get ⟨i, hm⟩).content ∧
      (req.history.get ⟨i, hh⟩).role =
        (if i = 0 then GeminiRole.user
         else if (messages.get ⟨i, hm⟩).role = Role.assistant then GeminiRole.model
         else GeminiRole.user)) ∧
    (∀ last : Message, messages.getLast? = some last →
      (systemPrompt = none → req.prompt = last.content) ∧
      (systemPrompt = some "" → req.prompt = last.content) ∧
      (∀ sp : String, systemPrompt = some sp → sp ≠ "" →
        req.prompt = sp ++ "\n\nUser: " ++ last.content))

/-- The study-mode navigation property for a deck of `n` cards: next is
`+1 mod n`, previous is `-1 + n mod n` (stated over `ℕ`), the two
wrap-around cases, and the answer-revealed flag resets on every
transition and on entering study mode. -/
def StudyNavSpec (n i : Nat) (b b2 : Bool) : Prop :=
  (nextCard n { currentCardIndex := i, showAnswer := b }).currentCardIndex = (i + 1) % n ∧
  (prevCard n { currentCardIndex := i, showAnswer := b }).currentCardIndex = (i + n - 1) % n ∧
  (nextCard n { currentCardIndex := n - 1, showAnswer := b }).currentCardIndex = 0 ∧
  (prevCard n { currentCardIndex := 0, showAnswer := b2 }).currentCardIndex = n - 1 ∧
  (nextCard n { currentCardIndex := i, showAnswer := b }).showAnswer = false ∧
  (prevCard n { currentCardIndex := i, showAnswer := b }).showAnswer = false ∧
  startStudy.showAnswer = false ∧ startStudy.currentCardIndex = 0

/-- The silent-default behaviour of the storyboard response parser: the
title falls back to `level ++ " Reading"` when the first section has no
`TITLE:` occurrence at all; content and vocabulary are empty when the text
has no `---` delimiter; and the vocabulary is empty when no line of the
vocabulary section contains `:`. -/
def StoryDefaultsSpec (text level : String) : Prop :=
  (containsSeq "TITLE:".toList ((splitOnL "---".toList text.toList).getD 0 []) = false →
    (parseStoryResponse text level).title = level ++ " Reading") ∧
  (containsSeq "---".toList text.toList = false →
    (parseStoryResponse text level).content = "" ∧
    (parseStoryResponse text level).vocabulary = []) ∧
  ((∀ line ∈ splitOnL ['\n'] (vocabSectionOf text), containsSeq [':'] line = false) →
    (parseStoryResponse text level).vocabulary = [])

/-- A concrete store state: one deck and one card owned by `alice`. -/
def sampleDB : DB :=
  { profiles := []
    conversations := []
    decks := [{ id := 1, user_id := "alice", name := "Deck", description := ""
                created_at := "2024-01-01T00:00:00.000Z"
                updated_at := "2024-01-01T00:00:00.000Z" }]
    cards := [{ id := 10, deck_id := 1, front := "F", back := "B"
                created_at := "2024-01-01T00:00:00.000Z"
                updated_at := "2024-01-01T00:00:00.000Z" }]
    stories := []
    nextId := 11 }

/-- The row inserted by `insertConversation` for the given arguments. -/
def insertedConv (db : DB) (u : String) (msgs : List Message) (ty now : String) :
    Conversation :=
  { id := db.nextId, user_id := u, messages := msgs, type := ty
    created_at := now, updated_at := now }

/-- The store state after `insertConversation` succeeds. -/
def insertedConvDB (db : DB) (u : String) (msgs : List Message) (ty now : String) :
    DB :=
  { db with
    conversations := db.conversations ++ [insertedConv db u msgs ty now]
    nextId := db.nextId + 1 }

/-- The store state after `upsertConversation` updates an owned row. -/
def updatedConvDB (db : DB) (u : String) (cid : Nat) (msgs : List Message)
    (now : String) : DB :=
  { db with conversations := db.conversations.map fun x =>
      if x.id == cid && x.user_id == u then
        { x with messages := msgs, updated_at := now } else x }

/-- The upsert semantics of `upsertConversation`: with an owned existing id
the row is updated in place (full message replacement, no second row); with
no id exactly one row is inserted and returned with its generated id, and a
subsequent upsert targeting that id updates the same row instead of
creating another. -/
def UpsertSpec (db : DB) (u : String) (cid : Nat) (c0 : Conversation)
    (msgs msgs2 : List Message) (ty ty2 now now2 : String) : Prop :=
  (db.conversations.filter (fun c => c.id == cid && c.user_id == u) = [c0] →
    (upsertConversation none db u (some cid) msgs ty now).1.data =
      some { c0 with messages := msgs, updated_at := now } ∧
    (upsertConversation none db u (some cid) msgs ty now).1.error = none ∧
    (upsertConversation none db u (some cid) msgs ty now).2.conversations.length =
      db.conversations.length ∧
    (upsertConversation none db u (some cid) msgs ty now).2.conversations.filter
        (fun c => c.id == cid && c.user_id == u) =
      [{ c0 with messages := msgs, updated_at := now }] ∧
    (upsertConversation none db u (some cid) msgs ty now).2.conversations.filter
        (fun c => !(c.id == cid && c.user_id == u)) =
      db.conversations.filter (fun c => !(c.id == cid && c.user_id == u))) ∧
  ((∀ c ∈ db.conversations, c.id ≠ db.nextId) →
    ∃ row : Conversation,
      (upsertConversation none db u none msgs ty now).1.data = some row ∧
      (upsertConversation none db u none msgs ty now).1.error = none ∧
      row.id = db.nextId ∧ row.user_id = u ∧ row.messages = msgs ∧
      (upsertConversation none db u none msgs ty now).2.conversations =
        db.conversations ++ [row] ∧
      (upsertConversation none
          (upsertConversation none db u none msgs ty now).2 u (some row.id)
          msgs2 ty2 now2).1.error = none ∧
      (upsertConversation none
          (upsertConversation none db u none msgs ty now).2 u (some row.id)
          msgs2 ty2 now2).2.conversations.length =
        (upsertConversation none db u none msgs ty now).2.conversations.length)

/-- The save-then-load round trip: after an upsert (either an in-place
update of an owned row or a fresh insert), `getConversation` for the same
user returns a row whose message sequence is exactly the one saved. -/
def ConversationRoundTripSpec (db : DB) (u : String) (cid : Nat)
    (c0 : Conversation) (msgs : List Message) (ty now : String) : Prop :=
  (db.conversations.filter (fun c => c.id == cid && c.user_id == u) = [c0] →
    ((getConversation none (upsertConversation none db u (some cid) msgs ty now).2
        u cid).1.data.map (fun c => c.messages)) = some msgs) ∧
  ((∀ c ∈ db.conversations, c.id ≠ db.nextId) →
    ((getConversation none (upsertConversation none db u none msgs ty now).2
        u db.nextId).1.data.map (fun c => c.messages)) = some msgs)

/-- The lazy-profile behaviour: an absent profile row is not an error
(`data = null, error = null`), `ensureProfileExists` creates a profile
exactly in that case, and with an existing profile it returns it and
touches nothing. -/
def ProfileLazyCreateSpec (db : DB) (userId email now : String) (p : Profile) : Prop :=
  ((∀ q ∈ db.profiles, q.id ≠ userId) →
    getProfile none db userId = ({ data := none, error := none }, db) ∧
    ∃ newP : Profile,
      (ensureProfileExists none none db userId email now).1.data = some newP ∧
      (ensureProfileExists none none db userId email now).1.error = none ∧
      newP.id = userId ∧
      (ensureProfileExists none none db userId email now).2.profiles =
        db.profiles ++ [newP]) ∧
  (db.profiles.filter (fun q => q.id == userId) = [p] →
    getProfile none db userId = ({ data := some p, error := none }, db) ∧
    ensureProfileExists none none db userId email now =
      ({ data := some p, error := none }, db))

/-- The behaviour of the six card/deck mutating operations when the
targeted deck (resp. the targeted card's deck) is not owned by the
requesting user: none of them mutates any row; `createCard`, `getCards`,
`updateCard`, `deleteCard` and `updateDeck` return an error result, while
`deleteDeck` reports success with a null error (its delete filters on id
and owner with no `.single()` check, and deleting zero rows is not an
error). -/
def OwnershipGuardSpec (db : DB) (u : String) (deckId cardId : Nat)
    (front back now : String) (du : DeckUpdates) (cu : CardUpdates) : Prop :=
  createCard none db u deckId front back now =
    ({ data := none, error := some "Deck not found or unauthorized" }, db) ∧
  getCards none db u deckId =
    ({ data := none, error := some "Deck not found or unauthorized" }, db) ∧
  updateDeck none db u deckId du now =
    ({ data := none, error := some noRowsErr }, db) ∧
  deleteDeck none db u deckId = ({ error := none }, db) ∧
  updateCard none db u cardId cu now =
    ({ data := none, error := some "Card not found or unauthorized" }, db) ∧
  deleteCard none db u cardId now =
    ({ error := some "Card not found or unauthorized" }, db)

/-- The fenced-JSON extraction contract of `generateConversationReview`:
with no fence marker the whole text is used; with a json fence
`a ++ "```json" ++ b ++ "```" ++ c` the extracted text is the trimmed
interior `b`; with only a generic fence `a ++ "```" ++ b ++ "```" ++ c`
likewise (the backtick-freedom hypotheses pin down which fence is the
first one). -/
def ExtractSpec (text a b c : String) : Prop :=
  (containsS "```json" text = false → containsS "```" text = false →
    extractJsonText text = text) ∧
  ((∀ ch ∈ a.toList, ch ≠ '`') → (∀ ch ∈ b.toList, ch ≠ '`') →
   (∀ ch ∈ c.toList, ch ≠ '`') →
    extractJsonText (a ++ "```json" ++ b ++ "```" ++ c) = trimS b) ∧
  ((∀ ch ∈ a.toList, ch ≠ '`') → (∀ ch ∈ b.toList, ch ≠ '`') →
   (∀ ch ∈ c.toList, ch ≠ '`') →
   containsS "```json" (a ++ "```" ++ b ++ "```" ++ c) = false →
    extractJsonText (a ++ "```" ++ b ++ "```" ++ c) = trimS b)

/-- The result-shape contract of `generateConversationReview`: when
parsing the extracted text fails the function returns
`data = null, error = e` instead of throwing, and when it succeeds it
returns the parsed object with a null error. -/
def ReviewResultSpec (α : Type) (parse : String → Except String α)
    (text : String) : Prop :=
  (∀ e, parse (extractJsonText text) = Except.error e →
    generateConversationReview parse none text = { data := none, error := some e }) ∧
  (∀ v, parse (extractJsonText text) = Except.ok v →
    generateConversationReview parse none text = { data := some v, error := none })

/-- The uniform `{ data, error }` discipline: a result never carries both
a populated `data` and a populated `error` (absence of data with a null
error is allowed — that is `getProfile`'s not-found case). -/
def WellShaped {α : Type} (r : QueryResult α) : Prop :=
  r.error = none ∨ r.data = none

/-! ## Theorems -/

theorem splitGo_no_sep (sep l acc : List Char)
    (h : containsSeq sep l = false) : splitGo sep l 0 acc = [acc.reverse ++ l] := by
  induction l generalizing acc with
  | nil => simp [splitGo]
  | cons c rest ih =>
    simp only [containsSeq, Bool.or_eq_false_iff] at h
    obtain ⟨h1, h2⟩ := h
    rw [show splitGo sep (c :: rest) 0 acc = splitGo sep rest 0 (c :: acc) from by
      simp [splitGo, h1]]
    rw [ih _ h2]
    simp

theorem splitOnL_no_sep (sep l : List Char) (h : containsSeq sep l = false) :
    splitOnL sep l = [l] := by
  simpa [splitOnL] using splitGo_no_sep sep l [] h

theorem matchTitle_none (l : List Char)
    (h : containsSeq "TITLE:".toList l = false) : matchTitle l = none := by
  induction l with
  | nil => rfl
  | cons c rest ih =>
    simp only [containsSeq, Bool.or_eq_false_iff] at h
    obtain ⟨h1, h2⟩ := h
    rw [show matchTitle (c :: rest) = matchTitle rest from by
      simp only [matchTitle, h1]
      simp]
    exact ih h2

/-- Claim C9 (amended), theorem: the storyboard parser is a total function
of the response text and silently produces defaults on unexpected shape —
the level-derived title when the first section contains no `TITLE:`, empty
content and vocabulary when there is no `---` delimiter at all, and an
empty vocabulary when no line of the vocabulary section contains `:`
(a line with `:` but no parenthesised reading is still parsed, with an
empty reading). -/
theorem parseStory_defaults (text level : String) : StoryDefaultsSpec text level := by
  refine ⟨?_, ?_, ?_⟩
  · intro h
    simp only [parseStoryResponse]
    rw [matchTitle_none _ h]
  · intro h
    have hs : splitOnL "---".toList text.toList = [text.toList] := splitOnL_no_sep _ _ h
    have hv : vocabSectionOf text = [] := by
      rw [vocabSectionOf, hs]
      rfl
    constructor
    · show (parseStoryResponse text level).content = ""
      simp only [parseStoryResponse]
      rw [hs]
      rfl
    · simp [parseStoryResponse, hv]
  · intro h
    by_cases hv : (vocabSectionOf text).isEmpty
    · simp [parseStoryResponse, hv]
    · have hfil : (splitOnL ['\n'] (vocabSectionOf text)).filter
          (fun l => containsSeq [':'] l) = [] :=
        List.filter_eq_nil_iff.mpr (fun l hl => by simp [h l hl])
      simp [parseStoryResponse, hv, hfil]

/-- Claim C9, witness: a response with no delimiters at all yields the
default title, empty content and empty vocabulary. -/
theorem parseStory_defaults_witness :
    (parseStoryResponse "hello" "N5").title = "N5" ++ " Reading" ∧
    (parseStoryResponse "hello" "N5").content = "" ∧
    (parseStoryResponse "hello" "N5").vocabulary = [] := by
  obtain ⟨h1, h2, h3⟩ := parseStory_defaults "hello" "N5"
  exact ⟨h1 (by decide), (h2 (by decide)).1, h3 (by decide)⟩

/-- Claim C9, counterexample to the claim as stated: a response whose
third section is `w : d` contains no line of the form
`word (reading) : definition` (it has no parenthesis anywhere), yet the
parser does not produce an empty vocabulary list — the line is parsed
into an item with an empty reading. -/
theorem parseStory_readingless_vocab_line :
    (parseStoryResponse "TITLE: T\n---\nC\n---\nw : d" "N5").vocabulary =
      [{ word := "w", reading := "", definition := "d", selected := true }] ∧
    ∀ ch ∈ "TITLE: T\n---\nC\n---\nw : d".toList, ch ≠ '(' := by
  constructor
  · rfl
  · decide

theorem coerceFirstToUser_length (l : List HistoryTurn) :
    (coerceFirstToUser l).length = l.length := by
  cases l <;> simp [coerceFirstToUser]

theorem coerceFirstToUser_get (l : List HistoryTurn) (i : Nat)
    (h : i < (coerceFirstToUser l).length) (h2 : i < l.length) :
    (coerceFirstToUser l).get ⟨i, h⟩ =
      if i = 0 then { role := GeminiRole.user, text := (l.get ⟨i, h2⟩).text }
      else l.get ⟨i, h2⟩ := by
  cases l with
  | nil => exact absurd h2 (by simp)
  | cons t ts =>
    cases i with
    | zero => simp [coerceFirstToUser]
    | succ n => simp [coerceFirstToUser]

/-- Claim C1 (amended), theorem: for every non-empty message list,
`generateResponse` maps assistant turns to role `model` and user turns to
role `user`, coerces the first mapped turn's role to `user`, sends all
turns except the last as history, and sends the last turn's content as the
prompt, prefixed by `systemPrompt ++ "\n\nUser: "` exactly when a
non-empty system prompt is supplied (the JS truthiness test skips the
prefix for an empty one). -/
theorem generateResponse_transcript_mapping (messages : List Message)
    (systemPrompt : Option String) (h : messages ≠ []) :
    TranscriptRequestSpec messages systemPrompt := by
  obtain ⟨last, hlast⟩ : ∃ l, messages.getLast? = some l :=
    Option.isSome_iff_exists.mp (List.getLast?_isSome.mpr h)
  refine ⟨{ history := (coerceFirstToUser (messages.map mapTurn)).dropLast
            prompt := match systemPrompt with
                      | some sp =>
                        if sp = "" then last.content
                        else sp ++ "\n\nUser: " ++ last.content
                      | none => last.content }, ?_, ?_, ?_, ?_⟩
  · simp [generateResponse, hlast]
  · simp [coerceFirstToUser_length]
  · intro i hh hm
    have hh2 : i < (coerceFirstToUser (messages.map mapTurn)).length := by
      simp only [List.length_dropLast] at hh
      omega
    have hm2 : i < (messages.map mapTurn).length := by simpa using hm
    have hdl : ((coerceFirstToUser (messages.map mapTurn)).dropLast).get ⟨i, hh⟩ =
        (coerceFirstToUser (messages.map mapTurn)).get ⟨i, hh2⟩ := by
      simp [List.getElem_dropLast]
    rw [hdl, coerceFirstToUser_get _ _ _ hm2]
    have hmap : (messages.map mapTurn).get ⟨i, hm2⟩ = mapTurn (messages.get ⟨i, hm⟩) := by
      simp
    by_cases h0 : i = 0
    · simp [h0, hmap, mapTurn]
    · simp only [if_neg h0]
      rw [hmap]
      exact ⟨rfl, rfl⟩
  · intro last2 hlast2
    rw [hlast] at hlast2
    obtain rfl : last = last2 := Option.some.inj hlast2
    refine ⟨?_, ?_, ?_⟩
    · rintro rfl; rfl
    · rintro rfl; simp
    · rintro sp rfl hne
      simp [if_neg hne]

/-- Claim C1, witness: the mapping property at the claim's own example
`[user:"A", assistant:"B", user:"C"]`, together with the concrete request
it produces: history `[user:"A", model:"B"]`, prompt `"C"`. -/
theorem generateResponse_transcript_mapping_witness :
    TranscriptRequestSpec
      [{ role := Role.user, content := "A" },
       { role := Role.assistant, content := "B" },
       { role := Role.user, content := "C" }] none ∧
    generateResponse
      [{ role := Role.user, content := "A" },
       { role := Role.assistant, content := "B" },
       { role := Role.user, content := "C" }] none =
      some { history := [{ role := GeminiRole.user, text := "A" },
                         { role := GeminiRole.model, text := "B" }]
             prompt := "C" } :=
  ⟨generateResponse_transcript_mapping _ _ (by simp), by rfl⟩

/-- Claim C1, counterexample to the claim as stated: a system prompt IS
supplied (`some ""`), yet the prompt sent is the bare last message, not
the system-instruction-prefixed form, because the JS truthiness test
`systemPrompt ? ... : ...` treats the empty string as absent. -/
theorem generateResponse_blank_systemPrompt_unprefixed :
    generateResponse [{ role := Role.user, content := "A" }] (some "") =
      some { history := [], prompt := "A" } ∧
    ("A" : String) ≠ "" ++ "\n\nUser: " ++ "A" := by
  exact ⟨by rfl, by decide⟩

/-- Claim C5, theorem: study-mode navigation over a deck of `n ≥ 1` cards
wraps around in both directions and hides the answer on every transition. -/
theorem studyMode_navigation (n i : Nat) (b b2 : Bool) (h : 1 ≤ n) :
    StudyNavSpec n i b b2 := by
  have hprev : ∀ j : Nat, (((j : Int) - 1 + n) % (n : Int)).toNat = (j + n - 1) % n := by
    intro j
    have h1 : ((j : Int) - 1 + n) = ((j + n - 1 : Nat) : Int) := by omega
    rw [h1]
    norm_cast
  refine ⟨rfl, hprev i, ?_, ?_, rfl, rfl, rfl, rfl⟩
  · have hn : n - 1 + 1 = n := by omega
    simp [nextCard, hn]
  · have h0 := hprev 0
    rw [Nat.cast_zero] at h0
    rw [show (prevCard n { currentCardIndex := 0, showAnswer := b2 }).currentCardIndex =
        (((0 : Int) - 1 + n) % (n : Int)).toNat from rfl, h0]
    have hlt : 0 + n - 1 < n := by omega
    simp [Nat.mod_eq_of_lt hlt]

/-- Claim C5, witness: the navigation property on a concrete 3-card deck. -/
theorem studyMode_navigation_witness : StudyNavSpec 3 1 true false :=
  studyMode_navigation 3 1 true false (by decide)

/-- Claim C10, theorem: `generateResponse` produces no request on the
empty message list (the JS dereferences the content of a missing last
element and throws), and produces one on every non-empty list. -/
theorem generateResponse_empty_input (systemPrompt : Option String) :
    generateResponse [] systemPrompt = none ∧
    ∀ messages : List Message, messages ≠ [] →
      (generateResponse messages systemPrompt).isSome := by
  constructor
  · rfl
  · intro m hm
    obtain ⟨last, hlast⟩ : ∃ l, m.getLast? = some l :=
      Option.isSome_iff_exists.mp (List.getLast?_isSome.mpr hm)
    simp [generateResponse, hlast]

/-- Claim C10, witness: the empty list yields no request; a singleton
user message yields one. -/
theorem generateResponse_empty_input_witness :
    generateResponse [] none = none ∧
    (generateResponse [{ role := Role.user, content := "A" }] none).isSome :=
  ⟨(generateResponse_empty_input none).1,
   (generateResponse_empty_input none).2 _ (by simp)⟩

theorem conv_update_filter_pos (l : List Conversation) (cid : Nat) (u : String)
    (msgs : List Message) (now : String) :
    (l.map fun x => if x.id == cid && x.user_id == u then
        { x with messages := msgs, updated_at := now } else x).filter
      (fun c => c.id == cid && c.user_id == u) =
    (l.filter (fun c => c.id == cid && c.user_id == u)).map
      (fun x => { x with messages := msgs, updated_at := now }) := by
  induction l with
  | nil => rfl
  | cons a as ih =>
    by_cases hp : (a.id == cid && a.user_id == u) = true
    · have hp2 : (({ a with messages := msgs, updated_at := now } : Conversation).id == cid &&
          ({ a with messages := msgs, updated_at := now } : Conversation).user_id == u) = true := hp
      simp only [List.map_cons, List.filter_cons, if_pos hp, if_pos hp2, ih]
    · simp only [List.map_cons, List.filter_cons, if_neg hp, ih]

theorem conv_update_filter_neg (l : List Conversation) (cid : Nat) (u : String)
    (msgs : List Message) (now : String) :
    (l.map fun x => if x.id == cid && x.user_id == u then
        { x with messages := msgs, updated_at := now } else x).filter
      (fun c => !(c.id == cid && c.user_id == u)) =
    l.filter (fun c => !(c.id == cid && c.user_id == u)) := by
  induction l with
  | nil => rfl
  | cons a as ih =>
    by_cases hp : (a.id == cid && a.user_id == u) = true
    · have hnn : ¬((!(a.id == cid && a.user_id == u)) = true) := by simp [hp]
      have hnn2 : ¬((!(({ a with messages := msgs, updated_at := now } : Conversation).id == cid &&
          ({ a with messages := msgs, updated_at := now } : Conversation).user_id == u)) = true) := hnn
      simp only [List.map_cons, List.filter_cons, if_pos hp, if_neg hnn2, if_neg hnn, ih]
    · have hfalse : (a.id == cid && a.user_id == u) = false := by
        revert hp
        cases a.id == cid && a.user_id == u <;> simp
      have hy : (!(a.id == cid && a.user_id == u)) = true := by rw [hfalse]; rfl
      simp only [List.map_cons, List.filter_cons, if_neg hp, if_pos hy, ih]

theorem upsertConversation_update_eq (db : DB) (u : String) (cid : Nat)
    (c0 : Conversation) (msgs : List Message) (ty now : String)
    (hf : db.conversations.filter (fun c => c.id == cid && c.user_id == u) = [c0]) :
    upsertConversation none db u (some cid) msgs ty now =
      ({ data := some { c0 with messages := msgs, updated_at := now }, error := none },
       updatedConvDB db u cid msgs now) := by
  simp only [upsertConversation, runQ, updatedConvDB]
  rw [hf]

theorem upsertConversation_insert_eq (db : DB) (u : String)
    (msgs : List Message) (ty now : String) :
    upsertConversation none db u none msgs ty now =
      ({ data := some (insertedConv db u msgs ty now), error := none },
       insertedConvDB db u msgs ty now) := rfl

theorem fresh_append_filter (l : List Conversation) (nid : Nat) (u : String)
    (row : Conversation) (hfresh : ∀ c ∈ l, c.id ≠ nid)
    (h1 : row.id = nid) (h2 : row.user_id = u) :
    (l ++ [row]).filter (fun c => c.id == nid && c.user_id == u) = [row] := by
  rw [List.filter_append]
  have hnil : l.filter (fun c => c.id == nid && c.user_id == u) = [] :=
    List.filter_eq_nil_iff.mpr (fun c hc => by
      simp only [Bool.and_eq_true, beq_iff_eq, not_and]
      exact fun h _ => absurd h (hfresh c hc))
  rw [hnil]
  simp [List.filter_cons, h1, h2]

/-- Claim C3, theorem: `upsertConversation` with an owned existing id
replaces that row's message sequence in place and never creates a second
row; with no id it inserts exactly one new row and returns it with its
generated id, which a subsequent upsert then updates instead of inserting
again. -/
theorem upsertConversation_upsert_semantics (db : DB) (u : String) (cid : Nat)
    (c0 : Conversation) (msgs msgs2 : List Message) (ty ty2 now now2 : String) :
    UpsertSpec db u cid c0 msgs msgs2 ty ty2 now now2 := by
  constructor
  · intro hf
    rw [upsertConversation_update_eq db u cid c0 msgs ty now hf]
    refine ⟨rfl, rfl, ?_, ?_, ?_⟩
    · show (updatedConvDB db u cid msgs now).conversations.length = db.conversations.length
      simp [updatedConvDB]
    · show (updatedConvDB db u cid msgs now).conversations.filter
          (fun c => c.id == cid && c.user_id == u) =
        [{ c0 with messages := msgs, updated_at := now }]
      simp only [updatedConvDB]
      rw [conv_update_filter_pos, hf]
      rfl
    · show (updatedConvDB db u cid msgs now).conversations.filter
          (fun c => !(c.id == cid && c.user_id == u)) =
        db.conversations.filter (fun c => !(c.id == cid && c.user_id == u))
      simp only [updatedConvDB]
      exact conv_update_filter_neg db.conversations cid u msgs now
  · intro hfresh
    have hfil : (insertedConvDB db u msgs ty now).conversations.filter
        (fun c => c.id == db.nextId && c.user_id == u) =
        [insertedConv db u msgs ty now] := by
      show (db.conversations ++ [insertedConv db u msgs ty now]).filter _ = _
      exact fresh_append_filter db.conversations db.nextId u
        (insertedConv db u msgs ty now) hfresh rfl rfl
    rw [upsertConversation_insert_eq db u msgs ty now]
    refine ⟨insertedConv db u msgs ty now, rfl, rfl, rfl, rfl, rfl, rfl, ?_, ?_⟩
    · show (upsertConversation none (insertedConvDB db u msgs ty now) u (some db.nextId)
          msgs2 ty2 now2).1.error = none
      rw [upsertConversation_update_eq (insertedConvDB db u msgs ty now) u db.nextId
        (insertedConv db u msgs ty now) msgs2 ty2 now2 hfil]
    · show (upsertConversation none (insertedConvDB db u msgs ty now) u (some db.nextId)
          msgs2 ty2 now2).2.conversations.length =
        (insertedConvDB db u msgs ty now).conversations.length
      rw [upsertConversation_update_eq (insertedConvDB db u msgs ty now) u db.nextId
        (insertedConv db u msgs ty now) msgs2 ty2 now2 hfil]
      show (updatedConvDB (insertedConvDB db u msgs ty now) u db.nextId
          msgs2 now2).conversations.length = _
      simp [updatedConvDB]

/-- Claim C3, witness: both branches at a concrete store: an update of an
owned row, and an insert followed by an update of the inserted row. -/
theorem upsertConversation_upsert_semantics_witness :
    UpsertSpec
      { profiles := [], conversations :=
          [{ id := 5, user_id := "alice", messages := [{ role := Role.user, content := "hi" }]
             type := "free", created_at := "t0", updated_at := "t0" }]
        decks := [], cards := [], stories := [], nextId := 6 }
      "alice" 5
      { id := 5, user_id := "alice", messages := [{ role := Role.user, content := "hi" }]
        type := "free", created_at := "t0", updated_at := "t0" }
      [{ role := Role.user, content := "hi" }, { role := Role.assistant, content := "yo" }]
      [{ role := Role.user, content := "bye" }]
      "free" "free" "t1" "t2" :=
  upsertConversation_upsert_semantics _ _ _ _ _ _ _ _ _ _

/-- Claim C7, theorem: saving a conversation through `upsertConversation`
(update of an owned row, or fresh insert) and loading it back through
`getConversation` for the same user yields exactly the saved message
sequence, order included. -/
theorem conversation_roundTrip (db : DB) (u : String) (cid : Nat)
    (c0 : Conversation) (msgs : List Message) (ty now : String) :
    ConversationRoundTripSpec db u cid c0 msgs ty now := by
  constructor
  · intro hf
    rw [upsertConversation_update_eq db u cid c0 msgs ty now hf]
    show ((getConversation none (updatedConvDB db u cid msgs now) u cid).1.data.map
      (fun c => c.messages)) = some msgs
    simp only [getConversation, runQ, updatedConvDB]
    rw [conv_update_filter_pos, hf]
    simp
  · intro hfresh
    have hfil : (insertedConvDB db u msgs ty now).conversations.filter
        (fun c => c.id == db.nextId && c.user_id == u) =
        [insertedConv db u msgs ty now] := by
      show (db.conversations ++ [insertedConv db u msgs ty now]).filter _ = _
      exact fresh_append_filter db.conversations db.nextId u
        (insertedConv db u msgs ty now) hfresh rfl rfl
    rw [upsertConversation_insert_eq db u msgs ty now]
    show ((getConversation none (insertedConvDB db u msgs ty now) u db.nextId).1.data.map
      (fun c => c.messages)) = some msgs
    simp only [getConversation, runQ]
    rw [hfil]
    rfl

/-- Claim C7, witness: the round trip at a concrete store, in both the
update and the insert branch. -/
theorem conversation_roundTrip_witness :
    ConversationRoundTripSpec
      { profiles := [], conversations :=
          [{ id := 5, user_id := "alice", messages := [{ role := Role.user, content := "hi" }]
             type := "free", created_at := "t0", updated_at := "t0" }]
        decks := [], cards := [], stories := [], nextId := 6 }
      "alice" 5
      { id := 5, user_id := "alice", messages := [{ role := Role.user, content := "hi" }]
        type := "free", created_at := "t0", updated_at := "t0" }
      [{ role := Role.user, content := "hi" }, { role := Role.assistant, content := "yo" }]
      "free" "t1" :=
  conversation_roundTrip _ _ _ _ _ _ _

/-- Claim C8, theorem: for a user with no profile row `getProfile` returns
`data = null, error = null`, and `ensureProfileExists` creates exactly one
new profile in that case; for a user whose profile exists it returns the
existing row and creates nothing. -/
theorem getProfile_ensureProfile_lazy (db : DB) (userId email now : String)
    (p : Profile) : ProfileLazyCreateSpec db userId email now p := by
  constructor
  · intro hno
    have hfil : db.profiles.filter (fun q => q.id == userId) = [] :=
      List.filter_eq_nil_iff.mpr (fun q hq => by
        simp only [beq_iff_eq]
        exact hno q hq)
    have hget : getProfile none db userId = ({ data := none, error := none }, db) := by
      simp only [getProfile]
      rw [hfil]
    refine ⟨hget, ?_⟩
    have hany : (db.profiles.any fun q => q.id == userId) = false := by
      cases han : db.profiles.any fun q => q.id == userId with
      | false => rfl
      | true =>
        obtain ⟨q, hq, hq2⟩ := List.any_eq_true.mp han
        exact absurd (beq_iff_eq.mp hq2) (hno q hq)
    have hens : ensureProfileExists none none db userId email now =
        ({ data := some { id := userId, name := emailLocal email, bio := ""
                          avatar_url := "", created_at := now, updated_at := now }
           error := none },
         { db with profiles := db.profiles ++
             [{ id := userId, name := emailLocal email, bio := ""
                avatar_url := "", created_at := now, updated_at := now }] }) := by
      simp only [ensureProfileExists, hget, createProfile, runQ, hany]
      rfl
    exact ⟨_, by rw [hens], by rw [hens], rfl, by rw [hens]⟩
  · intro hf
    have hget : getProfile none db userId = ({ data := some p, error := none }, db) := by
      simp only [getProfile]
      rw [hf]
    exact ⟨hget, by simp only [ensureProfileExists, hget]⟩

/-- Claim C8, witness: both branches at concrete stores — an empty profile
table, then a table already holding the user's profile. -/
theorem getProfile_ensureProfile_lazy_witness :
    ProfileLazyCreateSpec
      { profiles := [{ id := "u1", name := "n", bio := "", avatar_url := ""
                       created_at := "t0", updated_at := "t0" }]
        conversations := [], decks := [], cards := [], stories := [], nextId := 1 }
      "u1" "u1@example.com" "t1"
      { id := "u1", name := "n", bio := "", avatar_url := ""
        created_at := "t0", updated_at := "t0" } :=
  getProfile_ensureProfile_lazy _ _ _ _ _

/-- Claim C2 (amended), theorem: a card/deck mutation aimed at a deck id
or card id whose owning user differs from the requester performs no
mutation; all operations except `deleteDeck` fail with an
authorization/'not found or unauthorized' error, while `deleteDeck`
silently reports success. -/
theorem ownership_guard (db : DB) (u : String) (deckId cardId : Nat)
    (front back now : String) (du : DeckUpdates) (cu : CardUpdates)
    (hd : ∀ d ∈ db.decks, d.id = deckId → d.user_id ≠ u)
    (hc : ∀ c ∈ db.cards, c.id = cardId →
      ∀ d ∈ db.decks, d.id = c.deck_id → d.user_id ≠ u) :
    OwnershipGuardSpec db u deckId cardId front back now du cu := by
  have hmatch : ∀ d ∈ db.decks, (d.id == deckId && d.user_id == u) = false := by
    intro d hdm
    by_cases hid : d.id = deckId
    · have hne := hd d hdm hid
      simp [hid, beq_eq_false_iff_ne.mpr hne]
    · simp [beq_eq_false_iff_ne.mpr hid]
  have hdfil : db.decks.filter (fun d => d.id == deckId && d.user_id == u) = [] :=
    List.filter_eq_nil_iff.mpr (fun d hdm => by simp [hmatch d hdm])
  refine ⟨?_, ?_, ?_, ?_, ?_, ?_⟩
  · simp only [createCard, runQ]
    rw [hdfil]
  · simp only [getCards, runQ]
    rw [hdfil]
  · simp only [updateDeck, runQ]
    rw [hdfil]
  · have hkeep : db.decks.filter (fun d => !(d.id == deckId && d.user_id == u)) =
        db.decks :=
      List.filter_eq_self.mpr (fun d hdm => by simp [hmatch d hdm])
    simp only [deleteDeck, runD]
    rw [hdfil, hkeep]
    simp
  · simp only [updateCard, runQ]
    rcases hcf : db.cards.filter (fun c => c.id == cardId) with _ | ⟨c, tail⟩
    · simp only [hcf]
    · rcases tail with _ | ⟨c2, tail2⟩
      · have hcboth := List.mem_filter.mp
          (show c ∈ db.cards.filter (fun x => x.id == cardId) from by
            rw [hcf]; exact List.mem_singleton_self c)
        have hcmem : c ∈ db.cards := hcboth.1
        have hcid : c.id = cardId := beq_iff_eq.mp hcboth.2
        rcases hfind : db.decks.find? (fun d => d.id == c.deck_id) with _ | d
        · simp only [hcf, hfind]
        · have hdm : d ∈ db.decks := List.mem_of_find?_eq_some hfind
          have hdp := List.find?_some hfind
          have hdid : d.id = c.deck_id := beq_iff_eq.mp hdp
          have hne : d.user_id ≠ u := hc c hcmem hcid d hdm hdid
          have hbeq : (d.user_id == u) = false := beq_eq_false_iff_ne.mpr hne
          simp only [hcf, hfind, hbeq]
          simp
      · simp only [hcf]
  · simp only [deleteCard, runD]
    rcases hcf : db.cards.filter (fun c => c.id == cardId) with _ | ⟨c, tail⟩
    · simp only [hcf]
    · rcases tail with _ | ⟨c2, tail2⟩
      · have hcboth := List.mem_filter.mp
          (show c ∈ db.cards.filter (fun x => x.id == cardId) from by
            rw [hcf]; exact List.mem_singleton_self c)
        have hcmem : c ∈ db.cards := hcboth.1
        have hcid : c.id = cardId := beq_iff_eq.mp hcboth.2
        rcases hfind : db.decks.find? (fun d => d.id == c.deck_id) with _ | d
        · simp only [hcf, hfind]
        · have hdm : d ∈ db.decks := List.mem_of_find?_eq_some hfind
          have hdp := List.find?_some hfind
          have hdid : d.id = c.deck_id := beq_iff_eq.mp hdp
          have hne : d.user_id ≠ u := hc c hcmem hcid d hdm hdid
          have hbeq : (d.user_id == u) = false := beq_eq_false_iff_ne.mpr hne
          simp only [hcf, hfind, hbeq]
          simp
      · simp only [hcf]

/-- Claim C2, witness: the guard at a concrete store holding a deck and a
card owned by `alice`, with `bob` as the requester. -/
theorem ownership_guard_witness :
    OwnershipGuardSpec sampleDB "bob" 1 10 "F2" "B2" "t1"
      { name := some "n" } { front := some "f" } :=
  ownership_guard sampleDB "bob" 1 10 "F2" "B2" "t1"
    { name := some "n" } { front := some "f" } (by decide) (by decide)

/-- Claim C2, counterexample to the claim as stated: `deleteDeck` invoked
by `bob` on a deck owned by `alice` returns `error = null` — a success
result, not an authorization failure — while deleting nothing. -/
theorem deleteDeck_unowned_reports_success :
    (deleteDeck none sampleDB "bob" 1).1.error = none ∧
    (deleteDeck none sampleDB "bob" 1).2 = sampleDB ∧
    sampleDB.decks ≠ [] := by
  decide

theorem toList_append (s t : String) : (s ++ t).toList = s.toList ++ t.toList :=
  String.data_append s t

theorem containsSeq_avoid (s0 : Char) (srest x y : List Char)
    (hx : ∀ ch ∈ x, ch ≠ s0) :
    containsSeq (s0 :: srest) (x ++ y) = containsSeq (s0 :: srest) y := by
  induction x with
  | nil => rfl
  | cons ch rest ih =>
    have hch : (s0 == ch) = false :=
      beq_eq_false_iff_ne.mpr (fun h => hx ch (by simp) h.symm)
    show containsSeq (s0 :: srest) (ch :: (rest ++ y)) = _
    simp only [containsSeq, List.isPrefixOf, hch, Bool.false_and, Bool.false_or]
    exact ih (fun d hd => hx d (List.mem_cons_of_mem _ hd))

theorem containsSeq_avoid_nil (s0 : Char) (srest x : List Char)
    (hx : ∀ ch ∈ x, ch ≠ s0) :
    containsSeq (s0 :: srest) x = false := by
  have h := containsSeq_avoid s0 srest x [] hx
  rw [List.append_nil] at h
  rw [h]
  rfl

theorem containsSeq_append_sep (s0 : Char) (srest v : List Char) :
    containsSeq (s0 :: srest) ((s0 :: srest) ++ v) = true := by
  have hpre : (s0 :: srest).isPrefixOf ((s0 :: srest) ++ v) = true :=
    List.isPrefixOf_iff_prefix.mpr (List.prefix_append _ _)
  show ((s0 :: srest).isPrefixOf (s0 :: (srest ++ v)) ||
    containsSeq (s0 :: srest) (srest ++ v)) = true
  rw [show (s0 :: (srest ++ v)) = (s0 :: srest) ++ v from rfl, hpre]
  rfl

theorem isPrefixOf_head_avoid (s0 : Char) (w z : List Char)
    (hz : ∀ ch ∈ z, ch ≠ s0) : List.isPrefixOf (s0 :: w) z = false := by
  cases z with
  | nil => rfl
  | cons ch rest =>
    have hch : (s0 == ch) = false :=
      beq_eq_false_iff_ne.mpr (fun h => hz ch (by simp) h.symm)
    simp [List.isPrefixOf, hch]

theorem splitGo_avoid (s0 : Char) (srest x y acc : List Char)
    (hx : ∀ ch ∈ x, ch ≠ s0) :
    splitGo (s0 :: srest) (x ++ y) 0 acc =
      splitGo (s0 :: srest) y 0 (x.reverse ++ acc) := by
  induction x generalizing acc with
  | nil => simp
  | cons ch rest ih =>
    have hch : (s0 == ch) = false :=
      beq_eq_false_iff_ne.mpr (fun h => hx ch (by simp) h.symm)
    show splitGo (s0 :: srest) (ch :: (rest ++ y)) 0 acc = _
    rw [show splitGo (s0 :: srest) (ch :: (rest ++ y)) 0 acc =
        splitGo (s0 :: srest) (rest ++ y) 0 (ch :: acc) from by
      simp [splitGo, List.isPrefixOf, hch]]
    rw [ih (ch :: acc) (fun d hd => hx d (List.mem_cons_of_mem _ hd))]
    simp

theorem splitGo_skip (sep d y acc : List Char) :
    splitGo sep (d ++ y) d.length acc = splitGo sep y 0 acc := by
  induction d with
  | nil => rfl
  | cons ch rest ih =>
    show splitGo sep (ch :: (rest ++ y)) (rest.length + 1) acc = _
    rw [show splitGo sep (ch :: (rest ++ y)) (rest.length + 1) acc =
        splitGo sep (rest ++ y) rest.length acc from by simp [splitGo]]
    exact ih

theorem splitGo_emit (s0 : Char) (srest z acc : List Char) :
    splitGo (s0 :: srest) ((s0 :: srest) ++ z) 0 acc =
      acc.reverse :: splitGo (s0 :: srest) z 0 [] := by
  have hpre : (s0 :: srest).isPrefixOf ((s0 :: srest) ++ z) = true :=
    List.isPrefixOf_iff_prefix.mpr (List.prefix_append _ _)
  show splitGo (s0 :: srest) (s0 :: (srest ++ z)) 0 acc = _
  rw [show splitGo (s0 :: srest) (s0 :: (srest ++ z)) 0 acc =
      acc.reverse :: splitGo (s0 :: srest) (srest ++ z)
        ((s0 :: srest).length - 1) [] from by
    simp only [splitGo]
    rw [show (s0 :: (srest ++ z)) = (s0 :: srest) ++ z from rfl, hpre]
    simp]
  rw [show (s0 :: srest).length - 1 = srest.length from by simp]
  rw [splitGo_skip]

theorem splitOnL_decomp (s0 : Char) (srest x y : List Char)
    (hx : ∀ ch ∈ x, ch ≠ s0) :
    splitOnL (s0 :: srest) (x ++ (s0 :: srest) ++ y) =
      x :: splitOnL (s0 :: srest) y := by
  unfold splitOnL
  rw [List.append_assoc, splitGo_avoid s0 srest x _ [] hx, splitGo_emit]
  simp

theorem splitOnL_avoid_single (s0 : Char) (srest x : List Char)
    (hx : ∀ ch ∈ x, ch ≠ s0) :
    splitOnL (s0 :: srest) x = [x] :=
  splitOnL_no_sep _ _ (containsSeq_avoid_nil s0 srest x hx)

/-- Claim C4, theorem: `generateConversationReview` extracts the JSON
payload as the trimmed interior of a json fence when one is present, else
of the first generic fence, else uses the whole text; and for every
response whose extracted text fails to parse it returns
`data = null, error = e` instead of throwing, returning the parsed object
with a null error on success. -/
theorem generateConversationReview_extraction (α : Type)
    (parse : String → Except String α) (text a b c : String) :
    ExtractSpec text a b c ∧ ReviewResultSpec α parse text := by
  constructor
  · refine ⟨?_, ?_, ?_⟩
    · intro h1 h2
      unfold extractJsonText
      rw [if_neg (by simp [h1]), if_neg (by simp [h2])]
    · intro ha hb hc
      have hJ : ("```json".toList) =
          '`' :: ('`' :: ('`' :: ('j' :: ('s' :: ('o' :: ('n' :: [])))))) := rfl
      have h3 : ("```".toList) = '`' :: ('`' :: ('`' :: [])) := rfl
      have hTL : (a ++ "```json" ++ b ++ "```" ++ c).toList =
          a.toList ++ "```json".toList ++ (b.toList ++ "```".toList ++ c.toList) := by
        simp [toList_append, List.append_assoc]
      have hcon : containsS "```json" (a ++ "```json" ++ b ++ "```" ++ c) = true := by
        unfold containsS
        rw [hTL, List.append_assoc, hJ, containsSeq_avoid '`' _ _ _ ha]
        exact containsSeq_append_sep '`' _ _
      have hsplit1 : splitOnL "```json".toList
          (a ++ "```json" ++ b ++ "```" ++ c).toList =
          a.toList :: splitOnL "```json".toList
            (b.toList ++ "```".toList ++ c.toList) := by
        rw [hTL, hJ]
        exact splitOnL_decomp '`' _ _ _ ha
      have hext : extractJsonText (a ++ "```json" ++ b ++ "```" ++ c) =
          trimS ((splitOnS "```" ((splitOnS "```json"
            (a ++ "```json" ++ b ++ "```" ++ c)).getD 1 "")).getD 0 "") := by
        unfold extractJsonText
        rw [if_pos hcon]
      rw [hext]
      by_cases hp : ("json".toList).isPrefixOf c.toList = true
      · obtain ⟨z, hz⟩ : ∃ z, "json".toList ++ z = c.toList :=
          List.isPrefixOf_iff_prefix.mp hp
        have hY : b.toList ++ "```".toList ++ c.toList =
            b.toList ++ "```json".toList ++ z := by
          rw [← hz]
          simp [List.append_assoc]
        have hsplit2 : splitOnL "```json".toList
            (b.toList ++ "```".toList ++ c.toList) =
            b.toList :: splitOnL "```json".toList z := by
          rw [hY, hJ]
          exact splitOnL_decomp '`' _ _ _ hb
        have hgd1 : (splitOnS "```json"
            (a ++ "```json" ++ b ++ "```" ++ c)).getD 1 "" = String.mk b.toList := by
          unfold splitOnS
          rw [hsplit1, hsplit2]
          simp
        rw [hgd1]
        have hinner : splitOnS "```" (String.mk b.toList) = [String.mk b.toList] := by
          unfold splitOnS
          rw [show (String.mk b.toList).toList = b.toList from rfl, h3,
            splitOnL_avoid_single '`' _ _ hb]
          rfl
        rw [hinner]
        rfl
      · have hp2 : List.isPrefixOf ('j' :: ('s' :: ('o' :: ('n' :: [])))) c.data =
            false := by
          cases h4 : ("json".toList).isPrefixOf c.toList with
          | false => exact h4
          | true => exact absurd h4 hp
        have hic : ∀ w, List.isPrefixOf ('`' :: w) c.data = false :=
          fun w => isPrefixOf_head_avoid '`' w c.data hc
        have he4 : containsSeq
            ('`' :: ('`' :: ('`' :: ('j' :: ('s' :: ('o' :: ('n' :: [])))))))
            c.data = false := containsSeq_avoid_nil '`' _ c.data hc
        have hnone : containsSeq "```json".toList
            (b.toList ++ "```".toList ++ c.toList) = false := by
          rw [List.append_assoc, hJ, containsSeq_avoid '`' _ _ _ hb, h3]
          show containsSeq _ ('`' :: ('`' :: ('`' :: c.toList))) = false
          simp [containsSeq, List.isPrefixOf, hic, hp2, he4]
        have hsplit2 : splitOnL "```json".toList
            (b.toList ++ "```".toList ++ c.toList) =
            [b.toList ++ "```".toList ++ c.toList] :=
          splitOnL_no_sep _ _ hnone
        have hgd1 : (splitOnS "```json"
            (a ++ "```json" ++ b ++ "```" ++ c)).getD 1 "" =
            String.mk (b.toList ++ "```".toList ++ c.toList) := by
          unfold splitOnS
          rw [hsplit1, hsplit2]
          simp
        rw [hgd1]
        have hinner : (splitOnS "```"
            (String.mk (b.toList ++ "```".toList ++ c.toList))).getD 0 "" =
            String.mk b.toList := by
          unfold splitOnS
          rw [show (String.mk (b.toList ++ "```".toList ++ c.toList)).toList =
              b.toList ++ "```".toList ++ c.toList from rfl, h3,
            splitOnL_decomp '`' _ _ _ hb]
          simp
        rw [hinner]
        rfl
    · intro ha hb hc hnj
      have h3 : ("```".toList) = '`' :: ('`' :: ('`' :: [])) := rfl
      have hTL : (a ++ "```" ++ b ++ "```" ++ c).toList =
          a.toList ++ "```".toList ++ (b.toList ++ "```".toList ++ c.toList) := by
        simp [toList_append, List.append_assoc]
      have hcon : containsS "```" (a ++ "```" ++ b ++ "```" ++ c) = true := by
        unfold containsS
        rw [hTL, List.append_assoc, h3, containsSeq_avoid '`' _ _ _ ha]
        exact containsSeq_append_sep '`' _ _
      have hext : extractJsonText (a ++ "```" ++ b ++ "```" ++ c) =
          trimS ((splitOnS "```" ((splitOnS "```"
            (a ++ "```" ++ b ++ "```" ++ c)).getD 1 "")).getD 0 "") := by
        unfold extractJsonText
        rw [if_neg (by simp [hnj]), if_pos hcon]
      rw [hext]
      have hsplitA : splitOnL "```".toList (a ++ "```" ++ b ++ "```" ++ c).toList =
          a.toList :: (b.toList :: splitOnL "```".toList c.toList) := by
        rw [hTL, h3, splitOnL_decomp '`' _ _ _ ha, splitOnL_decomp '`' _ _ _ hb]
      have hgd1 : (splitOnS "```" (a ++ "```" ++ b ++ "```" ++ c)).getD 1 "" =
          String.mk b.toList := by
        unfold splitOnS
        rw [hsplitA]
        simp
      rw [hgd1]
      have hinner : splitOnS "```" (String.mk b.toList) = [String.mk b.toList] := by
        unfold splitOnS
        rw [show (String.mk b.toList).toList = b.toList from rfl, h3,
          splitOnL_avoid_single '`' _ _ hb]
        rfl
      rw [hinner]
      rfl
  · constructor
    · intro e he
      simp [generateConversationReview, he]
    · intro v hv
      simp [generateConversationReview, hv]

/-- Claim C4, witness: a response with a json fence extracts to the
trimmed interior, which then parses successfully; an unfenced response
whose body fails to parse comes back as a structured error. -/
theorem generateConversationReview_extraction_witness :
    extractJsonText ("ok " ++ "```json" ++ "\n rv \n" ++ "```" ++ " end") =
      trimS "\n rv \n" ∧
    trimS "\n rv \n" = "rv" ∧
    generateConversationReview
      (fun s => if s = "rv" then (Except.ok 1 : Except String Nat)
                else Except.error "bad")
      none ("ok " ++ "```json" ++ "\n rv \n" ++ "```" ++ " end") =
      { data := some 1, error := none } ∧
    generateConversationReview
      (fun s => if s = "rv" then (Except.ok 1 : Except String Nat)
                else Except.error "bad")
      none "no fence" = { data := none, error := some "bad" } := by
  have h := generateConversationReview_extraction Nat
    (fun s => if s = "rv" then (Except.ok 1 : Except String Nat)
              else Except.error "bad")
    ("ok " ++ "```json" ++ "\n rv \n" ++ "```" ++ " end") "ok " "\n rv \n" " end"
  have h2 := generateConversationReview_extraction Nat
    (fun s => if s = "rv" then (Except.ok 1 : Except String Nat)
              else Except.error "bad")
    "no fence" "" "" ""
  exact ⟨h.1.2.1 (by decide) (by decide) (by decide), by decide,
    h.2.2 1 (by rfl), h2.2.1 "bad" (by rfl)⟩

theorem runQ_wellShaped (fail : Option String) (db : DB)
    (body : Except String (α × DB)) : WellShaped (runQ fail db body).1 := by
  cases fail with
  | some e => exact Or.inr rfl
  | none =>
    cases body with
    | ok ab =>
      cases ab with
      | mk a db' => exact Or.inl rfl
    | error e => exact Or.inr rfl

/-- Claim C6, theorem: every data-access function of the backend module
returns the uniform result shape for every input and every store outcome:
when the underlying store call throws `e` the function returns normally
with `data = null` (or no data field for the delete operations) and
`error = e`, the store state untouched; and in no case does a result carry
both a populated `data` and a populated `error`. -/
theorem backend_uniform_result_shape (db : DB)
    (e uid email ty now lvl ttl cont front back nm : String)
    (name descr level : Option String) (msgs : List Message)
    (cid did cardId sid : Nat) (limit : Option Nat)
    (pu : ProfileUpdates) (du : DeckUpdates) (cu : CardUpdates)
    (ocid : Option Nat) (vocab : List VocabEntry) (fail f2 : Option String)
    (α : Type) (parse : String → Except String α) (text : String) :
    (createProfile (some e) db uid email name now =
      ({ data := none, error := some e }, db) ∧
      WellShaped (createProfile fail db uid email name now).1) ∧
    (getProfile (some e) db uid = ({ data := none, error := some e }, db) ∧
      WellShaped (getProfile fail db uid).1) ∧
    (editProfile (some e) db uid pu now = ({ data := none, error := some e }, db) ∧
      WellShaped (editProfile fail db uid pu now).1) ∧
    (insertConversation (some e) db uid msgs ty now =
      ({ data := none, error := some e }, db) ∧
      WellShaped (insertConversation fail db uid msgs ty now).1) ∧
    (upsertConversation (some e) db uid ocid msgs ty now =
      ({ data := none, error := some e }, db) ∧
      WellShaped (upsertConversation fail db uid ocid msgs ty now).1) ∧
    (getConversation (some e) db uid cid = ({ data := none, error := some e }, db) ∧
      WellShaped (getConversation fail db uid cid).1) ∧
    (getConversations (some e) db uid limit (some ty) =
      ({ data := none, error := some e }, db) ∧
      WellShaped (getConversations fail db uid limit (some ty)).1) ∧
    (deleteConversation (some e) db uid cid = ({ error := some e }, db)) ∧
    (getConversationStats (some e) db uid = ({ data := none, error := some e }, db) ∧
      WellShaped (getConversationStats fail db uid).1) ∧
    (createDeck (some e) db uid nm descr now = ({ data := none, error := some e }, db) ∧
      WellShaped (createDeck fail db uid nm descr now).1) ∧
    (getDecks (some e) db uid = ({ data := none, error := some e }, db) ∧
      WellShaped (getDecks fail db uid).1) ∧
    (getDeck (some e) db uid did = ({ data := none, error := some e }, db) ∧
      WellShaped (getDeck fail db uid did).1) ∧
    (updateDeck (some e) db uid did du now = ({ data := none, error := some e }, db) ∧
      WellShaped (updateDeck fail db uid did du now).1) ∧
    (deleteDeck (some e) db uid did = ({ error := some e }, db)) ∧
    (createCard (some e) db uid did front back now =
      ({ data := none, error := some e }, db) ∧
      WellShaped (createCard fail db uid did front back now).1) ∧
    (getCards (some e) db uid did = ({ data := none, error := some e }, db) ∧
      WellShaped (getCards fail db uid did).1) ∧
    (updateCard (some e) db uid cardId cu now =
      ({ data := none, error := some e }, db) ∧
      WellShaped (updateCard fail db uid cardId cu now).1) ∧
    (deleteCard (some e) db uid cardId now = ({ error := some e }, db)) ∧
    (createStory (some e) db uid lvl ttl cont vocab now =
      ({ data := none, error := some e }, db) ∧
      WellShaped (createStory fail db uid lvl ttl cont vocab now).1) ∧
    (getStories (some e) db uid level = ({ data := none, error := some e }, db) ∧
      WellShaped (getStories fail db uid level).1) ∧
    (getStory (some e) db uid sid = ({ data := none, error := some e }, db) ∧
      WellShaped (getStory fail db uid sid).1) ∧
    (deleteStory (some e) db uid sid = ({ error := some e }, db)) ∧
    (generateConversationReview parse (some e) text =
      { data := none, error := some e } ∧
      WellShaped (generateConversationReview parse fail text)) ∧
    (ensureProfileExists (some e) (some e) db uid email now =
      ({ data := none, error := some e }, db) ∧
      WellShaped (ensureProfileExists fail f2 db uid email now).1) := by
  have hgp : WellShaped (getProfile fail db uid).1 := by
    cases fail with
    | some e2 => exact Or.inr rfl
    | none =>
      left
      simp only [getProfile]
      cases hf : db.profiles.filter (fun p => p.id == uid) with
      | nil => simp only [hf]
      | cons p tail =>
        cases tail with
        | nil => simp only [hf]
        | cons q t2 => simp only [hf]
  have hups : WellShaped (upsertConversation fail db uid ocid msgs ty now).1 := by
    cases ocid with
    | none => exact runQ_wellShaped fail db _
    | some cid2 => exact runQ_wellShaped fail db _
  have hrev : WellShaped (generateConversationReview parse fail text) := by
    cases fail with
    | some e2 => exact Or.inr rfl
    | none =>
      cases hp : parse (extractJsonText text) with
      | ok v => simp only [generateConversationReview, hp]; exact Or.inl rfl
      | error e2 => simp only [generateConversationReview, hp]; exact Or.inr rfl
  have hens : WellShaped (ensureProfileExists fail f2 db uid email now).1 := by
    cases hg : (getProfile fail db uid).1.data with
    | none =>
      simp only [ensureProfileExists, hg]
      exact runQ_wellShaped f2 db _
    | some p =>
      simp only [ensureProfileExists, hg]
      exact Or.inl rfl
  refine ⟨⟨rfl, runQ_wellShaped fail db _⟩, ⟨rfl, hgp⟩,
    ⟨rfl, runQ_wellShaped fail db _⟩, ⟨rfl, runQ_wellShaped fail db _⟩,
    ⟨?_, hups⟩, ⟨rfl, runQ_wellShaped fail db _⟩,
    ⟨rfl, runQ_wellShaped fail db _⟩, rfl,
    ⟨rfl, runQ_wellShaped fail db _⟩, ⟨rfl, runQ_wellShaped fail db _⟩,
    ⟨rfl, runQ_wellShaped fail db _⟩, ⟨rfl, runQ_wellShaped fail db _⟩,
    ⟨rfl, runQ_wellShaped fail db _⟩, rfl,
    ⟨rfl, runQ_wellShaped fail db _⟩, ⟨rfl, runQ_wellShaped fail db _⟩,
    ⟨rfl, runQ_wellShaped fail db _⟩, rfl,
    ⟨rfl, runQ_wellShaped fail db _⟩, ⟨rfl, runQ_wellShaped fail db _⟩,
    ⟨rfl, runQ_wellShaped fail db _⟩, rfl,
    ⟨rfl, hrev⟩, ⟨rfl, hens⟩⟩
  cases ocid with
  | none => rfl
  | some cid2 => rfl

end Zokugo
